import Mathlib

/-
Verification of the timeline application's core layout and gesture logic.

The development shallowly embeds the source of `src/inertia.ts` / `src/App.tsx`
(the inertia hook, the `Timeline` component's layout pass, the extent
calculator and the pan/zoom transforms) into Lean:

* JavaScript `Date` values hold an integral number of milliseconds since the
  epoch (the ECMAScript time value is clipped to an integer), so event instants
  are modeled as `Int` milliseconds.  `getFullYear` / `new Date(y, 0, 1)` are
  modeled with the proleptic Gregorian calendar in UTC (the host's local zone
  is environment data the program does not control).
* All other numeric quantities (pixel positions, scales, velocities) are IEEE
  doubles in the source; they are idealized as exact rationals (`Rat`), the
  standard real-valued semantics in which the spec's "within floating-point
  tolerance" statements become exact equalities.
* JavaScript string comparison (`<` on strings, used by the event sort) is
  modeled lexicographically on code points (`lexLt`), and string/`undefined`
  strict equality (`===`) as equality of `Option String`.
* The stateful inertia hook (`useInertia`) is modeled as an explicit state
  machine over the browser's interval-timer registry.
-/

/-! ## JavaScript string primitives -/

/-- Lexicographic comparison of character lists by code point, modeling the
JavaScript `<` operator on strings (which compares code units). -/
def lexLt : List Char → List Char → Bool
  | [], [] => false
  | [], _ :: _ => true
  | _ :: _, [] => false
  | a :: as, b :: bs =>
    if a.val < b.val then true
    else if b.val < a.val then false
    else lexLt as bs

/-- JavaScript string `<`. -/
def strLtB (a b : String) : Bool :=
  lexLt a.data b.data

/-- JavaScript truthiness of an optional string (`undefined` and `""` are
falsy; any non-empty string is truthy).  Used for `event.color` and
`x.event.color` tests in the source. -/
def colorTruthy : Option String → Bool
  | some s => decide (s ≠ "")
  | none => false

/-! ## Data model (from the `interface` declarations in the source) -/

/-- `interface Event { title; start; end?; color? }`.  `start` and `endTime`
(`end` in the source) are Date time values: integral milliseconds. -/
structure Event where
  title : String
  start : Int
  endTime : Option Int
  color : Option String
deriving DecidableEq

/-- `interface EventCollection { events; title }`. -/
structure EventCollection where
  events : List Event
  title : String
deriving DecidableEq

/-- `interface TimelineExtent { start; end }` as produced by
`calculateExtent`: both bounds are Date time values (integral ms). -/
structure TimelineExtent where
  start : Int
  endTime : Int
deriving DecidableEq

/-! ## Calendar arithmetic (ECMAScript `Date` pieces used by the source)

`getFullYear` and `new Date(year, 0, 1)` are modeled with the standard
civil-from-days / days-from-civil algorithms for the proleptic Gregorian
calendar.  `Int` division in Lean is Euclidean, which coincides with
`Math.floor`-style division for the positive divisors used here. -/

/-- Milliseconds per day. -/
def msPerDay : Int := 86400000

/-- ECMAScript `Day(t)`: the day number containing time value `t`. -/
def dayFromMs (t : Int) : Int := t / msPerDay

/-- The civil (Gregorian) year containing day number `z0`
(days since 1970-01-01). -/
def civilYearFromDay (z0 : Int) : Int :=
  let z := z0 + 719468
  let era := z / 146097
  let doe := z - era * 146097
  let yoe := (doe - doe / 1460 + doe / 36524 - doe / 146096) / 365
  let y := yoe + era * 400
  let doy := doe - (365 * yoe + yoe / 4 - yoe / 100)
  let mp := (5 * doy + 2) / 153
  let m := mp + (if mp < 10 then 3 else -9)
  if m ≤ 2 then y + 1 else y

/-- `date.getFullYear()` for a Date holding time value `t`. -/
def getFullYearOf (t : Int) : Int := civilYearFromDay (dayFromMs t)

/-- Day number of January 1 of year `y`. -/
def jan1Day (y : Int) : Int :=
  let yp := y - 1
  let era := yp / 400
  let yoe := yp - era * 400
  let doe := yoe * 365 + yoe / 4 - yoe / 100 + 306
  era * 146097 + doe - 719468

/-- `new Date(y, 0, 1)` as a time value (midnight, January 1 of year `y`). -/
def jan1Ms (y : Int) : Int := jan1Day y * msPerDay

/-! ## `calculateExtent` (source lines 458-476)

The source computes `events[0].start` before folding; on an empty event list
this dereferences `undefined` and throws, aborting layout with no extent.  The
fallible computation is embedded as an `Option`: `none` is the failure. -/

/-- All events of all collections, in order: `collection.flatMap((c) => c.events)`. -/
def allEvents (cs : List EventCollection) : List Event :=
  cs.flatMap (·.events)

/-- One step of the `reduce` in `calculateExtent`:
`end = end || start` then keep the smaller `start` and the larger `end`. -/
def extStep (acc : TimelineExtent) (ev : Event) : TimelineExtent :=
  let e := ev.endTime.getD ev.start
  { start := if ev.start < acc.start then ev.start else acc.start
    endTime := if acc.endTime < e then e else acc.endTime }

/-- `calculateExtent(collection)`: fold min-start / max-(end ?? start) over all
events starting from `{start: events[0].start, end: events[0].start}`, then
clamp: if `end.getFullYear() - start.getFullYear() > 20`, replace `end` with
`new Date(start.getFullYear() + 20, 0, 1)`. -/
def calculateExtent (cs : List EventCollection) : Option TimelineExtent :=
  match allEvents cs with
  | [] => none
  | e0 :: rest =>
    let ext := (e0 :: rest).foldl extStep ⟨e0.start, e0.start⟩
    if 20 < getFullYearOf ext.endTime - getFullYearOf ext.start then
      some ⟨ext.start, jan1Ms (getFullYearOf ext.start + 20)⟩
    else
      some ext

/-- The fold value of `calculateExtent` before clamping, named so the clamp
condition can be stated about it. -/
def extentFold (e0 : Event) (rest : List Event) : TimelineExtent :=
  (e0 :: rest).foldl extStep ⟨e0.start, e0.start⟩

/-! ## Extent transforms (source lines 229-245, 251-260, 262-288)

`calculateNewPan` and `calculateNewZoom` read the container width from the
DOM; it is passed explicitly here.  Results are `(start, end)` pairs of
idealized-real time values. -/

/-- `calculateNewPan(delta, start, end)`:
`scale = width / (end - start)`, shift both bounds by `-delta / scale`. -/
def calculateNewPan (delta start endT width : Rat) : Rat × Rat :=
  let scale := width / (endT - start)
  (start - delta / scale, endT - delta / scale)

/-- `calculateNewZoom(delta, center, start, end)`:
`scale = 1 + delta / 1000`; start recedes by `span * center * (scale - 1)`,
end advances by `span * (1 - center) * (scale - 1)`. -/
def calculateNewZoom (delta center start endT : Rat) : Rat × Rat :=
  let scale := 1 + delta / 1000
  (start - (endT - start) * center * (scale - 1),
   endT + (endT - start) * (1 - center) * (scale - 1))

/-- The wheel handler: zoom by `e.deltaY` about `e.clientX / width` when
`deltaY !== 0`, otherwise leave the extent unchanged. -/
def handleWheel (deltaY clientX width start endT : Rat) : Rat × Rat :=
  if deltaY ≠ 0 then calculateNewZoom deltaY (clientX / width) start endT
  else (start, endT)

/-- The extent update of the `onDrag` gesture handler while the pointer is
down: pan by `state.delta[0]`, then zoom by `state.delta[1] * 2` about
`state.xy[0] / width`, anchored in the panned extent. -/
def onDragUpdate (panDelta zoomDelta xy width start endT : Rat) : Rat × Rat :=
  let p := calculateNewPan panDelta start endT width
  calculateNewZoom (zoomDelta * 2) (xy / width) p.1 p.2

/-- Modelled from the spec: `zoom(deltaUnits, centerFraction, extent)` with a
sensitivity constant `K` (`factor = 1 + deltaUnits / K`), stated in order to
compare the source's transforms against the spec's claimed constants. -/
def specZoom (K delta center start endT : Rat) : Rat × Rat :=
  let factor := 1 + delta / K
  (start - (endT - start) * center * (factor - 1),
   endT + (endT - start) * (1 - center) * (factor - 1))

/-! ## Fold characterization lemmas for `calculateExtent` -/

theorem extStep_start_le (acc : TimelineExtent) (ev : Event) :
    (extStep acc ev).start ≤ acc.start := by
  simp only [extStep]
  split <;> omega

theorem extStep_start_le_ev (acc : TimelineExtent) (ev : Event) :
    (extStep acc ev).start ≤ ev.start := by
  simp only [extStep]
  split <;> omega

theorem extfold_start_le_init (l : List Event) :
    ∀ acc : TimelineExtent, (l.foldl extStep acc).start ≤ acc.start := by
  induction l with
  | nil => intro acc; exact le_refl _
  | cons e t ih =>
    intro acc
    exact le_trans (ih (extStep acc e)) (extStep_start_le acc e)

theorem extfold_start_le_mem (l : List Event) :
    ∀ acc : TimelineExtent, ∀ ev ∈ l, (l.foldl extStep acc).start ≤ ev.start := by
  induction l with
  | nil => intro _ _ h; simp at h
  | cons e t ih =>
    intro acc ev hev
    rcases List.mem_cons.mp hev with h | h
    · subst h
      exact le_trans (extfold_start_le_init t (extStep acc ev)) (extStep_start_le_ev acc ev)
    · exact ih (extStep acc e) ev h

theorem extfold_start_attained (l : List Event) :
    ∀ acc : TimelineExtent,
      (l.foldl extStep acc).start = acc.start ∨
        ∃ ev ∈ l, (l.foldl extStep acc).start = ev.start := by
  induction l with
  | nil => intro acc; exact Or.inl rfl
  | cons e t ih =>
    intro acc
    rcases ih (extStep acc e) with h | ⟨ev, hev, h⟩
    · rw [List.foldl_cons, h]
      simp only [extStep]
      split
      · exact Or.inr ⟨e, List.mem_cons_self e t, rfl⟩
      · exact Or.inl rfl
    · exact Or.inr ⟨ev, List.mem_cons_of_mem e hev, h⟩

theorem extStep_end_ge (acc : TimelineExtent) (ev : Event) :
    acc.endTime ≤ (extStep acc ev).endTime := by
  simp only [extStep]
  split <;> omega

theorem extStep_end_ge_ev (acc : TimelineExtent) (ev : Event) :
    ev.endTime.getD ev.start ≤ (extStep acc ev).endTime := by
  simp only [extStep]
  split <;> omega

theorem extfold_end_ge_init (l : List Event) :
    ∀ acc : TimelineExtent, acc.endTime ≤ (l.foldl extStep acc).endTime := by
  induction l with
  | nil => intro acc; exact le_refl _
  | cons e t ih =>
    intro acc
    exact le_trans (extStep_end_ge acc e) (ih (extStep acc e))

theorem extfold_end_ge_mem (l : List Event) :
    ∀ acc : TimelineExtent, ∀ ev ∈ l,
      ev.endTime.getD ev.start ≤ (l.foldl extStep acc).endTime := by
  induction l with
  | nil => intro _ _ h; simp at h
  | cons e t ih =>
    intro acc ev hev
    rcases List.mem_cons.mp hev with h | h
    · subst h
      exact le_trans (extStep_end_ge_ev acc ev) (extfold_end_ge_init t (extStep acc ev))
    · exact ih (extStep acc e) ev h

/-! ## Claim C3 -/

/-- Claim C3: the extent calculation fails (producing no extent, the embedded
form of the exception the source throws from `events[0].start`) exactly when
the collections together contain zero events; with at least one event it
succeeds and no default extent is fabricated. -/
theorem calculateExtent_none_iff_no_events (cs : List EventCollection) :
    calculateExtent cs = none ↔ allEvents cs = [] := by
  cases h : allEvents cs with
  | nil => simp [calculateExtent, h]
  | cons e0 rest =>
    simp only [calculateExtent, h]
    constructor
    · intro hc
      split at hc <;> simp at hc
    · intro hc
      simp at hc

/-! ## Claim C4 -/

/-- Claim C4, corrected form.  The clamp in `calculateExtent` is triggered by
the calendar-year difference `end.getFullYear() - start.getFullYear() > 20`,
not by the span exceeding 20 years, and the clamped end is January 1 of
`start.getFullYear() + 20`, not `start + 20 years`.  The returned extent does
start at the earliest event start (a minimum attained by some event), its
pre-clamp end bounds every event's `end ?? start`, and the end is either that
maximum (year difference at most 20) or the January-1 clamp value. -/
theorem calculateExtent_start_min_and_year_clamp (cs : List EventCollection)
    (e0 : Event) (rest : List Event) (ext : TimelineExtent)
    (h : allEvents cs = e0 :: rest) (h2 : calculateExtent cs = some ext) :
    (∀ ev ∈ allEvents cs, ext.start ≤ ev.start) ∧
    (∃ ev ∈ allEvents cs, ext.start = ev.start) ∧
    (∀ ev ∈ allEvents cs, ev.endTime.getD ev.start ≤ (extentFold e0 rest).endTime) ∧
    (20 < getFullYearOf (extentFold e0 rest).endTime - getFullYearOf ext.start →
      ext.endTime = jan1Ms (getFullYearOf ext.start + 20)) ∧
    (getFullYearOf (extentFold e0 rest).endTime - getFullYearOf ext.start ≤ 20 →
      ext.endTime = (extentFold e0 rest).endTime) := by
  simp only [calculateExtent, h] at h2
  rw [show List.foldl extStep { start := e0.start, endTime := e0.start } (e0 :: rest) =
        extentFold e0 rest from rfl] at h2
  have hstart : ext.start = (extentFold e0 rest).start := by
    split at h2 <;> { cases h2; rfl }
  have hmin : ∀ ev ∈ allEvents cs, ext.start ≤ ev.start := by
    intro ev hev
    rw [h] at hev
    rw [hstart]
    exact extfold_start_le_mem (e0 :: rest) ⟨e0.start, e0.start⟩ ev hev
  have hatt : ∃ ev ∈ allEvents cs, ext.start = ev.start := by
    rw [h, hstart]
    rcases extfold_start_attained (e0 :: rest) ⟨e0.start, e0.start⟩ with hc | ⟨ev, hev, hc⟩
    · exact ⟨e0, List.mem_cons_self e0 rest, hc⟩
    · exact ⟨ev, hev, hc⟩
  have hmax : ∀ ev ∈ allEvents cs, ev.endTime.getD ev.start ≤ (extentFold e0 rest).endTime := by
    intro ev hev
    rw [h] at hev
    exact extfold_end_ge_mem (e0 :: rest) ⟨e0.start, e0.start⟩ ev hev
  refine ⟨hmin, hatt, hmax, ?_, ?_⟩
  · intro hgt
    rw [hstart] at hgt ⊢
    rw [if_pos hgt] at h2
    cases h2
    rfl
  · intro hle
    rw [hstart] at hle
    rw [if_neg (by omega)] at h2
    cases h2
    rfl

/-- Witness for the corrected C4 at the spec's own 50-year scenario: events at
1970-01-01 and 2020-01-01 produce the extent [1970-01-01, 1990-01-01] — start
at the earliest event, end clamped to January 1 of 1970 + 20. -/
theorem calculateExtent_start_min_and_year_clamp_witness :
    allEvents [⟨[⟨"a", 0, none, none⟩, ⟨"b", 1577836800000, none, none⟩], "t"⟩] =
      ⟨"a", 0, none, none⟩ :: [⟨"b", 1577836800000, none, none⟩] ∧
    calculateExtent [⟨[⟨"a", 0, none, none⟩, ⟨"b", 1577836800000, none, none⟩], "t"⟩] =
      some ⟨0, 631152000000⟩ ∧
    ((∀ ev ∈ allEvents [⟨[⟨"a", 0, none, none⟩, ⟨"b", 1577836800000, none, none⟩], "t"⟩],
        (⟨0, 631152000000⟩ : TimelineExtent).start ≤ ev.start) ∧
     (∃ ev ∈ allEvents [⟨[⟨"a", 0, none, none⟩, ⟨"b", 1577836800000, none, none⟩], "t"⟩],
        (⟨0, 631152000000⟩ : TimelineExtent).start = ev.start) ∧
     (∀ ev ∈ allEvents [⟨[⟨"a", 0, none, none⟩, ⟨"b", 1577836800000, none, none⟩], "t"⟩],
        ev.endTime.getD ev.start ≤
          (extentFold ⟨"a", 0, none, none⟩ [⟨"b", 1577836800000, none, none⟩]).endTime) ∧
     (20 < getFullYearOf
            (extentFold ⟨"a", 0, none, none⟩ [⟨"b", 1577836800000, none, none⟩]).endTime -
          getFullYearOf (⟨0, 631152000000⟩ : TimelineExtent).start →
        (⟨0, 631152000000⟩ : TimelineExtent).endTime =
          jan1Ms (getFullYearOf (⟨0, 631152000000⟩ : TimelineExtent).start + 20)) ∧
     (getFullYearOf
          (extentFold ⟨"a", 0, none, none⟩ [⟨"b", 1577836800000, none, none⟩]).endTime -
          getFullYearOf (⟨0, 631152000000⟩ : TimelineExtent).start ≤ 20 →
        (⟨0, 631152000000⟩ : TimelineExtent).endTime =
          (extentFold ⟨"a", 0, none, none⟩ [⟨"b", 1577836800000, none, none⟩]).endTime)) :=
  ⟨by decide, by decide,
   calculateExtent_start_min_and_year_clamp
     [⟨[⟨"a", 0, none, none⟩, ⟨"b", 1577836800000, none, none⟩], "t"⟩]
     ⟨"a", 0, none, none⟩ [⟨"b", 1577836800000, none, none⟩] ⟨0, 631152000000⟩
     (by decide) (by decide)⟩

/-- Counterexample to C4 as stated: a single event from 2000-01-01 to
2020-12-31 spans 7670 days — more than 20 years under any construal (more
than 7320 days = 20 × 366) — yet the year difference is exactly 20, so the
source does not clamp and the returned extent keeps the full span. -/
theorem extent_cap_counterexample :
    calculateExtent [⟨[⟨"a", 946684800000, some 1609372800000, none⟩], "t"⟩] =
      some ⟨946684800000, 1609372800000⟩ ∧
    7320 * msPerDay < (1609372800000 : Int) - 946684800000 := by
  constructor
  · decide
  · decide

/-! ## Claim C5 -/

/-- Counterexample to C5: a wheel zoom of `deltaY = -1000` (factor 0) about
the center collapses the extent to a single instant — `end > start` is
violated and the transform result is returned, not rejected; and
`calculateExtent` on a single point event returns an extent with
`end = start`, also violating `end > start`. -/
theorem extent_invariant_counterexample :
    calculateNewZoom (-1000) (1/2) 0 1000 = (500, 500) ∧
    calculateExtent [⟨[⟨"a", 0, none, none⟩], "t"⟩] = some ⟨0, 0⟩ := by
  constructor
  · simp only [calculateNewZoom]
    norm_num
  · decide

/-- Claim C5, corrected form.  No transform is rejected and no
`InvalidExtentError` exists in the source: `calculateNewPan` always preserves
the span exactly, and `calculateNewZoom` always multiplies the span by
`1 + delta / 1000` — so a pan preserves `end > start`, while a zoom preserves
it exactly when `1 + delta / 1000 > 0`, and yields a collapsed or reversed
extent (which is kept, not rejected) when `delta ≤ -1000`. -/
theorem extent_transforms_span_behavior (delta center start endT width : Rat)
    (_hw : 0 < width) (_hse : start < endT) :
    ((calculateNewPan delta start endT width).2 -
        (calculateNewPan delta start endT width).1 = endT - start) ∧
    ((calculateNewZoom delta center start endT).2 -
        (calculateNewZoom delta center start endT).1 =
      (endT - start) * (1 + delta / 1000)) := by
  constructor
  · simp only [calculateNewPan]
    ring
  · simp only [calculateNewZoom]
    ring

/-- Witness for the corrected C5 at a concrete extent and gesture. -/
theorem extent_transforms_span_behavior_witness :
    ((0:Rat) < 100) ∧ ((0:Rat) < 10) ∧
    (((calculateNewPan 7 0 10 100).2 - (calculateNewPan 7 0 10 100).1 = 10 - 0) ∧
     ((calculateNewZoom 7 (1/2) 0 10).2 - (calculateNewZoom 7 (1/2) 0 10).1 =
       (10 - 0) * (1 + 7 / 1000))) :=
  ⟨by norm_num, by norm_num,
   extent_transforms_span_behavior 7 (1/2) 0 10 100 (by norm_num) (by norm_num)⟩

/-! ## Claim C6 -/

/-- Counterexample to C6: the drag handler multiplies the gesture's zoom delta
by 2 before dividing by 1000, an effective sensitivity of K = 500, not the
claimed K = 250.  With a pure pinch of 250 delta units about the center of a
[0, 1000] extent, the source yields (-250, 1250) while the K = 250 formula of
the claim yields (-500, 1500). -/
theorem drag_zoom_sensitivity_counterexample :
    onDragUpdate 0 250 500 1000 0 1000 = (-250, 1250) ∧
    specZoom 250 250 (500 / 1000) 0 1000 = (-500, 1500) ∧
    onDragUpdate 0 250 500 1000 0 1000 ≠ specZoom 250 250 (500 / 1000) 0 1000 := by
  refine ⟨?_, ?_, ?_⟩
  · simp only [onDragUpdate, calculateNewPan, calculateNewZoom]
    norm_num
  · simp only [specZoom]
    norm_num
  · simp only [onDragUpdate, calculateNewPan, calculateNewZoom, specZoom]
    norm_num [Prod.ext_iff]

/-- Claim C6, corrected form.  The wheel zoom is exactly the spec's formula
with K = 1000; the drag gesture applies the pan first and then the spec's
zoom formula with effective sensitivity K = 500 (the source doubles the
gesture delta against the wheel constant 1000), anchored in the panned
extent; a wheel event with `deltaY = 0` leaves the extent unchanged. -/
theorem zoom_sensitivity_constants (delta center start endT : Rat)
    (panDelta zoomDelta xy width deltaY clientX : Rat) :
    (calculateNewZoom delta center start endT = specZoom 1000 delta center start endT) ∧
    (onDragUpdate panDelta zoomDelta xy width start endT =
      specZoom 500 zoomDelta (xy / width)
        (calculateNewPan panDelta start endT width).1
        (calculateNewPan panDelta start endT width).2) ∧
    (handleWheel deltaY clientX width start endT =
      if deltaY ≠ 0 then specZoom 1000 deltaY (clientX / width) start endT
      else (start, endT)) := by
  refine ⟨rfl, ?_, ?_⟩
  · simp only [onDragUpdate, calculateNewZoom, specZoom]
    rw [Prod.mk.injEq]
    constructor <;> ring
  · simp only [handleWheel, calculateNewZoom, specZoom]

/-! ## Claim C7 -/

/-- Claim C7: pan is invertible — panning by `-d` and then by `d` returns the
original extent (exactly, in the idealized real semantics that models the
spec's "within floating-point tolerance"). -/
theorem pan_inverse (d s e w : Rat) (hw : 0 < w) (hse : s < e) :
    calculateNewPan d (calculateNewPan (-d) s e w).1 (calculateNewPan (-d) s e w).2 w =
      (s, e) := by
  have hw' : w ≠ 0 := ne_of_gt hw
  have hspan : e - s ≠ 0 := sub_ne_zero.mpr (ne_of_gt hse)
  simp only [calculateNewPan]
  have hsub : (e - -d / (w / (e - s))) - (s - -d / (w / (e - s))) = e - s := by ring
  rw [hsub]
  rw [Prod.mk.injEq]
  constructor <;> (field_simp; try ring)

/-- Witness for C7 at a concrete extent, width and delta. -/
theorem pan_inverse_witness :
    ((0:Rat) < 1) ∧ ((0:Rat) < 2) ∧
    calculateNewPan 1 (calculateNewPan (-1) 0 2 1).1 (calculateNewPan (-1) 0 2 1).2 1 =
      (0, 2) :=
  ⟨by norm_num, by norm_num, pan_inverse 1 0 2 1 (by norm_num) (by norm_num)⟩

/-! ## Layout pass: geometry and lane assignment (source lines 135-213)

The text-measurement capability (`canvasContext.measureText`, memoized) is an
injected function `m : String → Rat` giving each title's pixel width.  The
layout closure reads the extent and the container width; both are explicit
parameters here.  The source skips layout entirely when the container width
or height is zero; the no-overlap invariant below holds for every parameter
value regardless. -/

/-- `const dotSize = 16`. -/
def dotSize : Rat := 16

/-- `const textPadding = 3`. -/
def textPadding : Rat := 3

/-- `const halfDotSize = dotSize / 2`. -/
def halfDotSize : Rat := dotSize / 2

/-- `interface PositionedEvent` (field `eventWidth` stores
`Math.max(dotSize, eventWidth)` as pushed by the source). -/
structure PositionedEvent where
  left : Rat
  eventWidth : Rat
  displayWidth : Rat
  textWidth : Rat
  height : Rat
  top : Rat
  event : Event
  lane : Nat
deriving DecidableEq

/-- `interface PositionEventCollection { positionedEvents; title }`. -/
structure PositionEventCollection where
  positionedEvents : List PositionedEvent
  title : String
deriving DecidableEq

/-- `left = (event.start - extent.start) * scale - halfDotSize + 1`. -/
def eventLeft (es sc : Rat) (ev : Event) : Rat :=
  ((ev.start : Rat) - es) * sc - halfDotSize + 1

/-- `eventWidth = ((event.end ?? event.start) - event.start) * scale + halfDotSize - 1`. -/
def eventWidthRaw (sc : Rat) (ev : Event) : Rat :=
  (((ev.endTime.getD ev.start) : Rat) - (ev.start : Rat)) * sc + halfDotSize - 1

/-- `displayWidth = Math.max(Math.max(dotSize, eventWidth), dotSize + textWidth + 2 * textPadding)`. -/
def displayWidthOf (m : String → Rat) (sc : Rat) (ev : Event) : Rat :=
  max (max dotSize (eventWidthRaw sc ev)) (dotSize + m ev.title + 2 * textPadding)

/-- The set of lanes currently holding at least one colored event:
`new Set(positionedEvents.filter((x) => x.event.color).map((x) => x.lane))`,
as a deduplicated list (only membership and size are used). -/
def coloredLanes (placed : List PositionedEvent) : List Nat :=
  ((placed.filter fun x => colorTruthy x.event.color).map PositionedEvent.lane).dedup

/-- `Array.from({length: coloredLanes.size + 1}).find((_, i) => !coloredLanes.has(i))`:
the first index in `0 .. size` outside the set (always exists). -/
def nextNonColoredLane (placed : List PositionedEvent) : Option Nat :=
  (List.range ((coloredLanes placed).length + 1)).find? fun i =>
    !(coloredLanes placed).contains i

/-- The preferred lane:
`positionedEvents.find((x) => x.event.color === event.color)?.lane ?? nextNonColoredLane ?? 0`.
Note the strict equality also matches two absent colors. -/
def preferredLane (placed : List PositionedEvent) (ev : Event) : Nat :=
  match placed.find? fun x => x.event.color == ev.color with
  | some x => x.lane
  | none => (nextNonColoredLane placed).getD 0

/-- The `while` guard: some already-placed event occupies `lane` and its span
overlaps `[left, left + dw)` — `p.lane === lane && p.left < left + displayWidth
&& p.left + p.displayWidth > left`. -/
def hasConflict (placed : List PositionedEvent) (lane : Nat) (left dw : Rat) : Prop :=
  ∃ p ∈ placed, p.lane = lane ∧ p.left < left + dw ∧ left < p.left + p.displayWidth

instance instDecHasConflict (placed : List PositionedEvent) (lane : Nat) (left dw : Rat) :
    Decidable (hasConflict placed lane dw left) := by
  unfold hasConflict
  infer_instance

/-- An upper bound on the lanes in use. -/
def maxLane (placed : List PositionedEvent) : Nat :=
  placed.foldr (fun p acc => max p.lane acc) 0

/-- The `while (conflict) lane++` scan, with explicit fuel.  Any lane above
`maxLane placed` is free, so fuel `maxLane placed + 2` always suffices. -/
def scanLane (placed : List PositionedEvent) (left dw : Rat) : Nat → Nat → Nat
  | 0, lane => lane
  | fuel + 1, lane =>
    if hasConflict placed lane left dw then scanLane placed left dw fuel (lane + 1)
    else lane

/-- The lane chosen by the `while` loop, starting from the preferred lane. -/
def findLane (placed : List PositionedEvent) (left dw : Rat) (lane0 : Nat) : Nat :=
  scanLane placed left dw (maxLane placed + 2) lane0

/-- One iteration of the `for (const event of events)` body: compute geometry,
choose the lane, push the positioned event. -/
def placeEvent (m : String → Rat) (es sc : Rat) (placed : List PositionedEvent)
    (ev : Event) : List PositionedEvent :=
  let left := eventLeft es sc ev
  let dw := displayWidthOf m sc ev
  let lane := findLane placed left dw (preferredLane placed ev)
  placed ++ [{ left := left
               eventWidth := max dotSize (eventWidthRaw sc ev)
               displayWidth := dw
               textWidth := m ev.title
               height := dotSize
               top := (lane : Rat) * (dotSize + textPadding * 2)
               event := ev
               lane := lane }]

/-- The full per-collection loop over (already sorted) events. -/
def placeEvents (m : String → Rat) (es sc : Rat) (evs : List Event) :
    List PositionedEvent :=
  evs.foldl (placeEvent m es sc) []

/-- The sort comparator of `sortedCollection`: color-ordered only when both
colors are truthy, otherwise by start time. -/
def compareEvents (a b : Event) : Int :=
  if colorTruthy a.color && colorTruthy b.color && strLtB (a.color.getD "") (b.color.getD "") then
    -1
  else if colorTruthy a.color && colorTruthy b.color && strLtB (b.color.getD "") (a.color.getD "") then
    1
  else if a.start < b.start then -1
  else if b.start < a.start then 1
  else 0

/-- Stable insertion of one event into an already-built prefix, realizing the
comparator-driven in-place `Array.prototype.sort` as a deterministic stable
sort (the comparator is not a strict weak order — colorless events compare by
start against everything — so the engine's result is implementation-defined;
this embedding fixes the stable order). -/
def insertEvent (e : Event) : List Event → List Event
  | [] => [e]
  | x :: xs => if compareEvents e x < 0 then e :: x :: xs else x :: insertEvent e xs

/-- `events.sort(comparator)` (the source sorts each collection's array in
place inside `sortedCollection`). -/
def sortEvents (l : List Event) : List Event :=
  l.foldl (fun acc e => insertEvent e acc) []

/-- `sortedCollection`: map each collection to its title plus sorted events. -/
def sortedCollection (cs : List EventCollection) : List EventCollection :=
  cs.map fun c => ⟨sortEvents c.events, c.title⟩

/-- One layout pass: for each sorted collection, place all events with
`scale = width / (extent.end - extent.start)`. -/
def layout (m : String → Rat) (extentStart extentEnd width : Rat)
    (cs : List EventCollection) : List PositionEventCollection :=
  let scale := width / (extentEnd - extentStart)
  (sortedCollection cs).map fun c => ⟨placeEvents m extentStart scale c.events, c.title⟩

/-- The claims' half-open horizontal overlap test:
`a.left < b.left + b.width && b.left < a.left + a.width`. -/
def spansOverlap (a b : PositionedEvent) : Prop :=
  a.left < b.left + b.displayWidth ∧ b.left < a.left + a.displayWidth

instance instDecSpansOverlap (a b : PositionedEvent) : Decidable (spansOverlap a b) := by
  unfold spansOverlap
  infer_instance

/-! ## Lane-search lemmas -/

theorem scanLane_succ (placed : List PositionedEvent) (left dw : Rat) (fuel lane : Nat) :
    scanLane placed left dw (fuel + 1) lane =
      if hasConflict placed lane left dw then scanLane placed left dw fuel (lane + 1)
      else lane := rfl

theorem maxLane_ge (placed : List PositionedEvent) :
    ∀ p ∈ placed, p.lane ≤ maxLane placed := by
  induction placed with
  | nil => intro p hp; simp at hp
  | cons q t ih =>
    intro p hp
    rcases List.mem_cons.mp hp with h | h
    · subst h
      exact le_max_left _ _
    · exact le_trans (ih p h) (le_max_right _ _)

theorem not_hasConflict_of_maxLane_lt (placed : List PositionedEvent) (left dw : Rat)
    (lane : Nat) (h : maxLane placed < lane) : ¬ hasConflict placed lane left dw := by
  rintro ⟨p, hp, hl, -⟩
  have := maxLane_ge placed p hp
  omega

theorem scanLane_free (placed : List PositionedEvent) (left dw : Rat) :
    ∀ fuel lane, (∃ k, k < fuel ∧ ¬ hasConflict placed (lane + k) left dw) →
      ¬ hasConflict placed (scanLane placed left dw fuel lane) left dw := by
  intro fuel
  induction fuel with
  | zero =>
    rintro lane ⟨k, hk, -⟩
    omega
  | succ f ih =>
    rintro lane ⟨k, hk, hfree⟩
    by_cases hc : hasConflict placed lane left dw
    · rw [scanLane_succ, if_pos hc]
      apply ih (lane + 1)
      rcases k with - | k'
      · rw [Nat.add_zero] at hfree
        exact absurd hc hfree
      · refine ⟨k', by omega, ?_⟩
        have hkk : lane + 1 + k' = lane + (k' + 1) := by omega
        rw [hkk]
        exact hfree
    · rw [scanLane_succ, if_neg hc]
      exact hc

theorem findLane_free (placed : List PositionedEvent) (left dw : Rat) (lane0 : Nat) :
    ¬ hasConflict placed (findLane placed left dw lane0) left dw := by
  apply scanLane_free
  refine ⟨maxLane placed + 1 - lane0, by omega, ?_⟩
  apply not_hasConflict_of_maxLane_lt
  omega

theorem findLane_eq_of_free (placed : List PositionedEvent) (left dw : Rat) (lane0 : Nat)
    (h : ¬ hasConflict placed lane0 left dw) : findLane placed left dw lane0 = lane0 := by
  show scanLane placed left dw (maxLane placed + 1 + 1) lane0 = lane0
  rw [scanLane_succ, if_neg h]

/-- `placeEvent` unfolded to an append of the pushed record. -/
theorem placeEvent_eq (m : String → Rat) (es sc : Rat) (placed : List PositionedEvent)
    (ev : Event) :
    placeEvent m es sc placed ev =
      placed ++
        [{ left := eventLeft es sc ev
           eventWidth := max dotSize (eventWidthRaw sc ev)
           displayWidth := displayWidthOf m sc ev
           textWidth := m ev.title
           height := dotSize
           top := ((findLane placed (eventLeft es sc ev) (displayWidthOf m sc ev)
                     (preferredLane placed ev) : Nat) : Rat) * (dotSize + textPadding * 2)
           event := ev
           lane := findLane placed (eventLeft es sc ev) (displayWidthOf m sc ev)
                     (preferredLane placed ev) }] := rfl

/-! ## Claim C1 -/

theorem placeEvent_pairwise (m : String → Rat) (es sc : Rat)
    (placed : List PositionedEvent) (ev : Event)
    (h : placed.Pairwise fun a b => a.lane = b.lane → ¬ spansOverlap a b) :
    (placeEvent m es sc placed ev).Pairwise fun a b => a.lane = b.lane → ¬ spansOverlap a b := by
  rw [placeEvent_eq, List.pairwise_append]
  refine ⟨h, List.pairwise_singleton _ _, ?_⟩
  intro a ha b hb
  simp only [List.mem_singleton] at hb
  subst hb
  intro hlane hov
  apply findLane_free placed (eventLeft es sc ev) (displayWidthOf m sc ev)
    (preferredLane placed ev)
  exact ⟨a, ha, hlane, hov.1, hov.2⟩

theorem placeEvents_pairwise (m : String → Rat) (es sc : Rat) (evs : List Event) :
    ∀ acc : List PositionedEvent,
      acc.Pairwise (fun a b => a.lane = b.lane → ¬ spansOverlap a b) →
      (evs.foldl (placeEvent m es sc) acc).Pairwise
        fun a b => a.lane = b.lane → ¬ spansOverlap a b := by
  induction evs with
  | nil => intro acc h; exact h
  | cons e t ih =>
    intro acc h
    exact ih (placeEvent m es sc acc e) (placeEvent_pairwise m es sc acc e h)

/-- Claim C1: in every lane assignment produced by one layout pass, any two
positioned events of the same collection that share a lane have
non-overlapping horizontal spans `[left, left + displayWidth)` under the
half-open overlap test. -/
theorem layout_same_lane_no_overlap (m : String → Rat)
    (extentStart extentEnd width : Rat) (cs : List EventCollection) :
    (layout m extentStart extentEnd width cs).Forall fun pc =>
      pc.positionedEvents.Pairwise fun a b => a.lane = b.lane → ¬ spansOverlap a b := by
  rw [List.forall_iff_forall_mem]
  intro pc hpc
  simp only [layout, sortedCollection, List.map_map, List.mem_map] at hpc
  obtain ⟨c, -, rfl⟩ := hpc
  exact placeEvents_pairwise m extentStart _ _ [] List.Pairwise.nil

/-! ## Claim C2 -/

/-- Claim C2, corrected form: the preferred lane of an event is the lane of
the FIRST already-placed event whose color strictly equals its color (the
source's `find`); when such a match exists and the new event's span conflicts
with nothing already placed on that first match's lane, the event is placed
there.  (The claim's universal form — any same-color pair with no overlap on
the earlier event's lane shares a lane — fails, see the counterexample.) -/
theorem preferred_lane_first_color_match (m : String → Rat) (es sc : Rat)
    (placed : List PositionedEvent) (ev : Event) (q : PositionedEvent)
    (hq : placed.find? (fun x => x.event.color == ev.color) = some q)
    (hfree : ¬ hasConflict placed q.lane (eventLeft es sc ev) (displayWidthOf m sc ev)) :
    ∃ p : PositionedEvent,
      placeEvent m es sc placed ev = placed ++ [p] ∧ p.event = ev ∧ p.lane = q.lane := by
  have hpref : preferredLane placed ev = q.lane := by
    simp [preferredLane, hq]
  refine ⟨_, placeEvent_eq m es sc placed ev, rfl, ?_⟩
  show findLane placed (eventLeft es sc ev) (displayWidthOf m sc ev)
      (preferredLane placed ev) = q.lane
  rw [hpref]
  exact findLane_eq_of_free placed _ _ _ hfree

/-! ## Concrete layout evaluation for the C2 counterexample

Three point events sharing color "red", sorted order preserved (equal colors,
ascending starts), in a container of width 1000 over the extent [0, 1000), so
`scale = 1`.  The injected text measurer returns width 0 for the empty title,
giving every dot the display span `[start - 7, start - 7 + 22)`. -/

/-- Text measurer returning 0 (the titles below are empty). -/
def zeroMeasure : String → Rat := fun _ => 0

def cxE1 : Event := ⟨"", 100, none, some "red"⟩

def cxE2 : Event := ⟨"", 110, none, some "red"⟩

def cxE3 : Event := ⟨"", 200, none, some "red"⟩

/-- Position of `cxE1`: span [93, 115), lane 0. -/
def cxP1 : PositionedEvent := ⟨93, 16, 22, 0, 16, 0, cxE1, 0⟩

/-- Position of `cxE2`: span [103, 125) — overlaps `cxP1` on lane 0 — lane 1. -/
def cxP2 : PositionedEvent := ⟨103, 16, 22, 0, 16, 22, cxE2, 1⟩

/-- Position of `cxE3`: span [193, 215), no conflict on the first red event's
lane 0, so it is placed on lane 0 even though `cxP2` (same color, no overlap)
sits on lane 1. -/
def cxP3 : PositionedEvent := ⟨193, 16, 22, 0, 16, 0, cxE3, 0⟩

theorem cx_step1 : placeEvent zeroMeasure 0 1 [] cxE1 = [cxP1] := by
  have hpref : preferredLane [] cxE1 = 0 := by decide
  have hlane : findLane [] (eventLeft 0 1 cxE1) (displayWidthOf zeroMeasure 1 cxE1)
      (preferredLane [] cxE1) = 0 := by
    rw [hpref]
    refine findLane_eq_of_free _ _ _ _ ?_
    rintro ⟨p, hp, -⟩
    simp at hp
  rw [placeEvent_eq, hlane]
  simp only [List.nil_append, List.cons.injEq, and_true, cxP1, cxE1,
    PositionedEvent.mk.injEq]
  norm_num [eventLeft, displayWidthOf, eventWidthRaw, dotSize, halfDotSize,
    textPadding, zeroMeasure, max_def]

theorem cx_step2 : placeEvent zeroMeasure 0 1 [cxP1] cxE2 = [cxP1, cxP2] := by
  have hpref : preferredLane [cxP1] cxE2 = 0 := by decide
  have hconf0 : hasConflict [cxP1] 0 (eventLeft 0 1 cxE2) (displayWidthOf zeroMeasure 1 cxE2) := by
    refine ⟨cxP1, by simp, by decide, ?_, ?_⟩ <;>
      norm_num [cxP1, cxE2, eventLeft, displayWidthOf, eventWidthRaw, dotSize,
        halfDotSize, textPadding, zeroMeasure, max_def]
  have hfree1 : ¬ hasConflict [cxP1] 1 (eventLeft 0 1 cxE2) (displayWidthOf zeroMeasure 1 cxE2) := by
    rintro ⟨p, hp, hl, -⟩
    simp only [List.mem_singleton] at hp
    subst hp
    exact absurd hl (by decide)
  have hlane : findLane [cxP1] (eventLeft 0 1 cxE2) (displayWidthOf zeroMeasure 1 cxE2)
      (preferredLane [cxP1] cxE2) = 1 := by
    rw [hpref]
    show scanLane [cxP1] (eventLeft 0 1 cxE2) (displayWidthOf zeroMeasure 1 cxE2)
      (maxLane [cxP1] + 1 + 1) 0 = 1
    rw [scanLane_succ, if_pos hconf0, Nat.zero_add, scanLane_succ, if_neg hfree1]
  rw [placeEvent_eq, hlane]
  simp only [List.cons_append, List.nil_append, List.cons.injEq, true_and, and_true,
    cxP2, cxE2, PositionedEvent.mk.injEq]
  norm_num [eventLeft, displayWidthOf, eventWidthRaw, dotSize, halfDotSize,
    textPadding, zeroMeasure, max_def]

theorem cx_step3 : placeEvent zeroMeasure 0 1 [cxP1, cxP2] cxE3 = [cxP1, cxP2, cxP3] := by
  have hpref : preferredLane [cxP1, cxP2] cxE3 = 0 := by decide
  have hfree0 : ¬ hasConflict [cxP1, cxP2] 0 (eventLeft 0 1 cxE3)
      (displayWidthOf zeroMeasure 1 cxE3) := by
    rintro ⟨p, hp, hl, h1, h2⟩
    simp only [List.mem_cons, List.not_mem_nil, or_false] at hp
    rcases hp with rfl | rfl
    · revert h2
      norm_num [cxP1, cxE3, eventLeft, dotSize, halfDotSize]
    · exact absurd hl (by decide)
  have hlane : findLane [cxP1, cxP2] (eventLeft 0 1 cxE3) (displayWidthOf zeroMeasure 1 cxE3)
      (preferredLane [cxP1, cxP2] cxE3) = 0 := by
    rw [hpref]
    exact findLane_eq_of_free _ _ _ _ hfree0
  rw [placeEvent_eq, hlane]
  simp only [List.cons_append, List.nil_append, List.cons.injEq, true_and, and_true,
    cxP3, cxE3, PositionedEvent.mk.injEq]
  norm_num [eventLeft, displayWidthOf, eventWidthRaw, dotSize, halfDotSize,
    textPadding, zeroMeasure, max_def]

/-- Counterexample to C2 as universally stated: in one layout pass, `cxE2` and
`cxE3` share the non-empty color "red", `cxE3`'s span overlaps nothing placed
on `cxE2`'s lane, yet they are assigned different lanes — because the
preferred lane comes from the FIRST placed event with a matching color
(`cxP1`, lane 0), not from `cxP2`. -/
theorem color_grouping_counterexample :
    layout zeroMeasure 0 1000 1000 [⟨[cxE1, cxE2, cxE3], "tl"⟩] =
      [⟨[cxP1, cxP2, cxP3], "tl"⟩] ∧
    cxP2.event.color = some "red" ∧
    cxP3.event.color = some "red" ∧
    colorTruthy cxP2.event.color = true ∧
    cxP2.lane ≠ cxP3.lane ∧
    (∀ p ∈ [cxP1, cxP2], p.lane = cxP2.lane → ¬ spansOverlap p cxP3) := by
  refine ⟨?_, by decide, by decide, by decide, by decide, ?_⟩
  · have hsort : sortEvents [cxE1, cxE2, cxE3] = [cxE1, cxE2, cxE3] := by decide
    have hscale : (1000 : Rat) / (1000 - 0) = 1 := by norm_num
    simp only [layout, sortedCollection, List.map_cons, List.map_nil]
    rw [hsort, hscale]
    simp only [placeEvents, List.foldl_cons, List.foldl_nil]
    rw [cx_step1, cx_step2, cx_step3]
  · intro p hp
    simp only [List.mem_cons, List.not_mem_nil, or_false] at hp
    rcases hp with rfl | rfl
    · intro h
      exact absurd h (by decide)
    · intro _h
      norm_num [spansOverlap, cxP2, cxP3]

/-- Witness for the corrected C2: a later red event (`cxE3`) whose span is
clear of the first red event's lane is placed exactly there. -/
theorem preferred_lane_first_color_match_witness :
    ([cxP1].find? (fun x => x.event.color == cxE3.color) = some cxP1) ∧
    (¬ hasConflict [cxP1] cxP1.lane (eventLeft 0 1 cxE3) (displayWidthOf zeroMeasure 1 cxE3)) ∧
    (∃ p : PositionedEvent,
      placeEvent zeroMeasure 0 1 [cxP1] cxE3 = [cxP1] ++ [p] ∧
        p.event = cxE3 ∧ p.lane = cxP1.lane) := by
  have hq : [cxP1].find? (fun x => x.event.color == cxE3.color) = some cxP1 := by decide
  have hfree : ¬ hasConflict [cxP1] cxP1.lane (eventLeft 0 1 cxE3)
      (displayWidthOf zeroMeasure 1 cxE3) := by
    rintro ⟨p, hp, hl, h1, h2⟩
    simp only [List.mem_singleton] at hp
    subst hp
    revert h2
    norm_num [cxP1, cxE3, eventLeft, dotSize, halfDotSize]
  exact ⟨hq, hfree,
    preferred_lane_first_color_match zeroMeasure 0 1 [cxP1] cxE3 cxP1 hq hfree⟩

/-! ## Claim C10

`sortedCollection` calls `events.sort(...)`, and `Array.prototype.sort` sorts
the caller's array IN PLACE: after one layout pass the caller's `events`
arrays hold the comparator order, not the order they were passed in. -/

/-- The caller's `events` array as observed after one layout pass: the
in-place `events.sort(comparator)` leaves it in sorted order. -/
def eventsAfterLayout (c : EventCollection) : List Event :=
  sortEvents c.events

theorem insertEvent_perm (e : Event) :
    ∀ l : List Event, (insertEvent e l).Perm (e :: l) := by
  intro l
  induction l with
  | nil => exact List.Perm.refl _
  | cons x xs ih =>
    rw [insertEvent]
    split
    · exact List.Perm.refl _
    · exact (ih.cons x).trans (List.Perm.swap e x xs)

theorem foldl_insert_perm :
    ∀ l acc : List Event,
      (l.foldl (fun a e => insertEvent e a) acc).Perm (acc ++ l) := by
  intro l
  induction l with
  | nil =>
    intro acc
    simp
  | cons e t ih =>
    intro acc
    rw [List.foldl_cons]
    refine (ih (insertEvent e acc)).trans ?_
    refine (List.Perm.append_right t (insertEvent_perm e acc)).trans ?_
    exact List.perm_middle.symm

/-- Counterexample to C10 as stated: two colorless events passed
later-start-first come back earlier-start-first — the caller's events
sequence is not identical to what was passed in. -/
theorem layout_mutates_event_order_counterexample :
    eventsAfterLayout ⟨[⟨"b", 200, none, none⟩, ⟨"a", 100, none, none⟩], "t"⟩ =
      [⟨"a", 100, none, none⟩, ⟨"b", 200, none, none⟩] ∧
    eventsAfterLayout ⟨[⟨"b", 200, none, none⟩, ⟨"a", 100, none, none⟩], "t"⟩ ≠
      [⟨"b", 200, none, none⟩, ⟨"a", 100, none, none⟩] := by
  constructor
  · decide
  · decide

/-- Claim C10, corrected form: the layout pass mutates only the ORDER of each
collection's events array (the in-place sort); the resulting sequence is a
permutation of the input — same multiset of events, no individual Event value
mutated, nothing added or dropped. -/
theorem layout_sort_permutes_events (c : EventCollection) :
    (eventsAfterLayout c).Perm c.events := by
  have h := foldl_insert_perm c.events []
  simpa [eventsAfterLayout, sortEvents] using h

/-! ## The inertia hook (source lines 3-38)

`useInertia` keeps one shared velocity cell and a ref to the id of the most
recently created interval timer.  The browser's timer registry is modeled as
the list of live interval ids; `window.setInterval` registers a fresh id,
`clearInterval` removes one.  A `tick i` action is the firing of interval `i`
(it does nothing if `i` has been cleared): the handler invokes the callback
with the current velocity, then either stops (clearing `intervalId.current`,
which at that point may not be `i` itself) when `|velocity| < 0.1`, or decays
the velocity by 0.95.  Note `beginInertia` does NOT clear a previously
registered interval: it merely overwrites `intervalId.current`. -/

inductive InertiaAction where
  | start (v : Rat)
  | stop
  | tick (id : Nat)

/-- The hook's state plus the environment's timer registry and a count of
callback invocations. -/
structure InertiaState where
  nextId : Nat
  active : List Nat
  current : Option Nat
  velocity : Rat
  calls : Nat

/-- A freshly mounted hook: no timer, velocity 0, callback never invoked. -/
def inertiaInit : InertiaState := ⟨0, [], none, 0, 0⟩

/-- One step: `beginInertia(v)`, `endInertia()`, or the firing of interval
timer `i`. -/
def inertiaStep (s : InertiaState) : InertiaAction → InertiaState
  | InertiaAction.start v =>
    { s with velocity := v
             active := s.nextId :: s.active
             current := some s.nextId
             nextId := s.nextId + 1 }
  | InertiaAction.stop =>
    match s.current with
    | some j => { s with active := s.active.erase j, current := none }
    | none => s
  | InertiaAction.tick i =>
    if i ∈ s.active then
      if |s.velocity| < 1 / 10 then
        { s with calls := s.calls + 1
                 active := match s.current with
                   | some j => s.active.erase j
                   | none => s.active
                 current := none
                 velocity := 0 }
      else
        { s with calls := s.calls + 1, velocity := s.velocity * (19 / 20) }
    else s

/-- Run a sequence of actions. -/
def inertiaRun (s : InertiaState) (acts : List InertiaAction) : InertiaState :=
  acts.foldl inertiaStep s

/-- Stop/tick actions only (what "no other start intervenes" allows):
`none` is a `stop()` call, `some i` the firing of timer `i`. -/
def toStopTick : Option Nat → InertiaAction
  | none => InertiaAction.stop
  | some i => InertiaAction.tick i

theorem inertiaRun_quiet (post : List (Option Nat)) :
    ∀ s : InertiaState, s.active = [] →
      (inertiaRun s (post.map toStopTick)).calls = s.calls ∧
      (inertiaRun s (post.map toStopTick)).active = [] := by
  induction post with
  | nil =>
    intro s hs
    exact ⟨rfl, hs⟩
  | cons o t ih =>
    intro s hs
    have hstep : (inertiaStep s (toStopTick o)).active = [] ∧
        (inertiaStep s (toStopTick o)).calls = s.calls := by
      cases o with
      | none =>
        cases hc : s.current with
        | none => simp [inertiaStep, toStopTick, hc, hs]
        | some j => simp [inertiaStep, toStopTick, hc, hs]
      | some i =>
        simp [inertiaStep, toStopTick, hs]
    have hrest := ih (inertiaStep s (toStopTick o)) hstep.1
    constructor
    · show (inertiaRun (inertiaStep s (toStopTick o)) (t.map toStopTick)).calls = s.calls
      rw [hrest.1, hstep.2]
    · show (inertiaRun (inertiaStep s (toStopTick o)) (t.map toStopTick)).active = []
      exact hrest.2

/-! ## Claim C8 -/

/-- Claim C8: if `start(v, cb)` is immediately followed by `stop()` before any
tick fires, and no other `start` intervenes, the callback is never invoked —
no matter which timers later attempt to fire and how many further `stop()`
calls occur. -/
theorem inertia_stop_before_tick_no_callback (v : Rat) (post : List (Option Nat)) :
    (inertiaRun inertiaInit
      ([InertiaAction.start v, InertiaAction.stop] ++ post.map toStopTick)).calls = 0 := by
  have hsplit : inertiaRun inertiaInit
      ([InertiaAction.start v, InertiaAction.stop] ++ post.map toStopTick) =
      inertiaRun (inertiaRun inertiaInit [InertiaAction.start v, InertiaAction.stop])
        (post.map toStopTick) := by
    simp [inertiaRun, List.foldl_append]
  have hpre : inertiaRun inertiaInit [InertiaAction.start v, InertiaAction.stop] =
      { nextId := 1, active := [], current := none, velocity := v, calls := 0 } := by
    simp [inertiaRun, inertiaInit, inertiaStep, List.foldl]
  rw [hsplit, hpre]
  exact (inertiaRun_quiet post _ rfl).1

/-! ## Claim C9 -/

/-- Claim C9 is violated by the source (code bug): `beginInertia` installs a
new interval WITHOUT clearing the previous one, so a second `start` while a
run is active leaves two live periodic timers, and the following `stop()`
clears only the most recent — one pending timer survives, not zero. -/
theorem inertia_double_start_two_timers :
    (inertiaRun inertiaInit [InertiaAction.start 10, InertiaAction.start 10]).active.length = 2 ∧
    (inertiaRun inertiaInit
      [InertiaAction.start 10, InertiaAction.start 10, InertiaAction.stop]).active.length = 1 := by
  constructor
  · decide
  · decide
